import Mathlib

/-!
Verification of the stack-sparrow review pipeline.

Shallow embedding of the pure decision logic of `sparrow/assistant/run.py`,
`sparrow/assistant/review.py`, `sparrow/libs/strings.py`, `sparrow/libs/scm.py`
and `sparrow/libs/llm.py`.  External collaborators (the tokenizer, the file
system's binary check, file-content reads, and the review backend) are passed
in as explicit function parameters; everything else is translated directly
from the Python source.
-/

namespace Sparrow

/-- Embeds `constants.MAX_TOKENS_PER_REVIEW` from `sparrow/libs/constants.py`. -/
def MAX_TOKENS_PER_REVIEW : Nat := 20 * 1000

/-- Embeds the `ReviewFile` dataclass of `sparrow/assistant/review.py`.
`status` is the Python `Literal["needs_review", "skipped"]` kept as a string. -/
structure ReviewFile where
  file_path : String
  message : String
  status : String
  input_tokens : Nat
  skipped_reason : Option String
deriving DecidableEq

/-- Embeds the `ReviewPlan` dataclass of `sparrow/assistant/review.py`.
`estimated_cost` is kept as a rational (the Python float is only ever
assigned outside the planning functions modelled here). -/
structure ReviewPlan where
  files : List ReviewFile
  estimated_cost : Rat
  input_tokens : Nat
  estimated_output_tokens : Nat
deriving DecidableEq

/-- Embeds `ReviewPlan.add_file` (review.py lines 176-182). -/
def ReviewPlan.add_file (plan : ReviewPlan) (file : ReviewFile)
    (in_tokens est_out_tokens : Nat) : ReviewPlan :=
  { plan with
    files := plan.files ++ [file]
    input_tokens := plan.input_tokens + in_tokens
    estimated_output_tokens := plan.estimated_output_tokens + est_out_tokens }

/-! ## The batch scheduler of `execute_code_review` (run.py lines 99-114)

The loop state is `review_chunks`, `current_chunk`, `review_tokens`.  The
direct embedding collects messages exactly as the source does; an
instrumented twin collects the `ReviewFile` records themselves so that
token sums and membership can be stated, and a lemma connects the two. -/

/-- Loop state of the chunking loop in `execute_code_review`, with chunks of
messages exactly as in the source. -/
structure MsgChunkState where
  review_chunks : List (List String)
  current_chunk : List String
  review_tokens : Nat
deriving DecidableEq

/-- One iteration of the chunking loop of `execute_code_review`
(run.py lines 102-111), translated statement by statement. -/
def msgChunkStep (budget : Nat) (st : MsgChunkState) (step : ReviewFile) :
    MsgChunkState :=
  if step.status = "skipped" then st
  else if st.review_tokens + step.input_tokens > budget then
    ⟨st.review_chunks ++ [st.current_chunk], [], 0⟩
  else
    ⟨st.review_chunks, st.current_chunk ++ [step.message],
      st.review_tokens + step.input_tokens⟩

/-- The chunking phase of `execute_code_review` (run.py lines 99-114):
the loop over `plan.files` followed by the flush of a non-empty trailing
chunk.  The budget is `constants.MAX_TOKENS_PER_REVIEW` in the source;
it is kept as a parameter here and instantiated below. -/
def review_chunks (budget : Nat) (files : List ReviewFile) :
    List (List String) :=
  let st := files.foldl (msgChunkStep budget) ⟨[], [], 0⟩
  if st.current_chunk.isEmpty then st.review_chunks
  else st.review_chunks ++ [st.current_chunk]

/-- Loop state of the chunking loop, instrumented to carry the
`ReviewFile` records instead of only their messages. -/
structure ChunkState where
  review_chunks : List (List ReviewFile)
  current_chunk : List ReviewFile
  review_tokens : Nat
deriving DecidableEq

/-- Instrumented twin of `msgChunkStep` carrying whole `ReviewFile`s. -/
def chunkStep (budget : Nat) (st : ChunkState) (step : ReviewFile) :
    ChunkState :=
  if step.status = "skipped" then st
  else if st.review_tokens + step.input_tokens > budget then
    ⟨st.review_chunks ++ [st.current_chunk], [], 0⟩
  else
    ⟨st.review_chunks, st.current_chunk ++ [step],
      st.review_tokens + step.input_tokens⟩

/-- Instrumented twin of `review_chunks` carrying whole `ReviewFile`s. -/
def review_chunk_units (budget : Nat) (files : List ReviewFile) :
    List (List ReviewFile) :=
  let st := files.foldl (chunkStep budget) ⟨[], [], 0⟩
  if st.current_chunk.isEmpty then st.review_chunks
  else st.review_chunks ++ [st.current_chunk]

/-- Projection relating the instrumented state to the message-level state. -/
def ChunkState.toMsg (st : ChunkState) : MsgChunkState :=
  ⟨st.review_chunks.map (List.map ReviewFile.message),
    st.current_chunk.map ReviewFile.message, st.review_tokens⟩

lemma msgChunkStep_toMsg (budget : Nat) (st : ChunkState) (step : ReviewFile) :
    msgChunkStep budget st.toMsg step = (chunkStep budget st step).toMsg := by
  unfold msgChunkStep chunkStep ChunkState.toMsg
  by_cases h1 : step.status = "skipped" <;>
    by_cases h2 : st.review_tokens + step.input_tokens > budget <;>
      simp [h1, h2]

lemma foldl_msgChunkStep_toMsg (budget : Nat) (files : List ReviewFile)
    (st : ChunkState) :
    files.foldl (msgChunkStep budget) st.toMsg =
      (files.foldl (chunkStep budget) st).toMsg := by
  induction files generalizing st with
  | nil => rfl
  | cons f fs ih =>
    simp only [List.foldl_cons, msgChunkStep_toMsg]
    exact ih _

/-- The message chunks of the source are the per-unit chunks with each
unit replaced by its message. -/
lemma review_chunks_eq_map (budget : Nat) (files : List ReviewFile) :
    review_chunks budget files =
      (review_chunk_units budget files).map (List.map ReviewFile.message) := by
  unfold review_chunks review_chunk_units
  have h : (⟨[], [], 0⟩ : MsgChunkState) = (⟨[], [], 0⟩ : ChunkState).toMsg := rfl
  rw [h, foldl_msgChunkStep_toMsg]
  set st := files.foldl (chunkStep budget) ⟨[], [], 0⟩ with hst
  rcases st with ⟨chunks, current, tokens⟩
  rcases current with _ | ⟨c, cs⟩ <;> simp [ChunkState.toMsg]

/-- Token sum of a chunk of review units. -/
def chunkSum (c : List ReviewFile) : Nat := (c.map ReviewFile.input_tokens).sum

/-- Invariant maintained by the chunking loop: every closed chunk and the
current chunk stay within the budget, and `review_tokens` tracks the
current chunk's token sum. -/
def ChunkInv (budget : Nat) (st : ChunkState) : Prop :=
  (∀ c ∈ st.review_chunks, chunkSum c ≤ budget) ∧
    st.review_tokens = chunkSum st.current_chunk ∧
    chunkSum st.current_chunk ≤ budget

lemma chunkStep_inv (budget : Nat) (st : ChunkState) (step : ReviewFile)
    (h : ChunkInv budget st) : ChunkInv budget (chunkStep budget st step) := by
  obtain ⟨h1, h2, h3⟩ := h
  unfold chunkStep ChunkInv
  by_cases hs : step.status = "skipped"
  · simpa [hs] using ⟨h1, h2, h3⟩
  · by_cases ho : st.review_tokens + step.input_tokens > budget
    · simp only [hs, ho, if_true, if_false, ite_true, ite_false]
      refine ⟨?_, by simp [chunkSum], by simp [chunkSum]⟩
      intro c hc
      rcases List.mem_append.mp hc with hc | hc
      · exact h1 c hc
      · simp only [List.mem_singleton] at hc
        exact hc ▸ h3
    · simp only [hs, ho, if_true, if_false, ite_true, ite_false]
      refine ⟨h1, ?_, ?_⟩
      · simp [chunkSum, h2]
      · have hle : st.review_tokens + step.input_tokens ≤ budget :=
          Nat.not_lt.mp ho
        calc chunkSum (st.current_chunk ++ [step])
            = st.review_tokens + step.input_tokens := by simp [chunkSum, h2]
          _ ≤ budget := hle

lemma foldl_chunkStep_inv (budget : Nat) (files : List ReviewFile)
    (st : ChunkState) (h : ChunkInv budget st) :
    ChunkInv budget (files.foldl (chunkStep budget) st) := by
  induction files generalizing st with
  | nil => exact h
  | cons f fs ih => exact ih _ (chunkStep_inv budget st f h)

lemma review_chunk_units_sum_le (budget : Nat) (files : List ReviewFile) :
    ∀ c ∈ review_chunk_units budget files, chunkSum c ≤ budget := by
  have hinv : ChunkInv budget (files.foldl (chunkStep budget) ⟨[], [], 0⟩) :=
    foldl_chunkStep_inv budget files _ (by simp [ChunkInv, chunkSum])
  obtain ⟨h1, _, h3⟩ := hinv
  intro c hc
  unfold review_chunk_units at hc
  by_cases he : (files.foldl (chunkStep budget) ⟨[], [], 0⟩).current_chunk.isEmpty
  · rw [if_pos he] at hc
    exact h1 c hc
  · rw [if_neg he] at hc
    rcases List.mem_append.mp hc with hc | hc
    · exact h1 c hc
    · simp only [List.mem_singleton] at hc
      exact hc ▸ h3

/-! ## Concrete review files for the scheduler claims -/

/-- First of two 15,000-token units from the spec's scheduler scenario. -/
def fileA : ReviewFile := ⟨"A.py", "msgA", "needs_review", 15000, none⟩

/-- Second of two 15,000-token units from the spec's scheduler scenario. -/
def fileB : ReviewFile := ⟨"B.py", "msgB", "needs_review", 15000, none⟩

/-- Claim C1: the scheduler is claimed to follow greedy first-fit-in-order,
with the overflow unit starting the new chunk; on two 15,000-token units
with budget 20,000 it is claimed to produce two singleton chunks.  The code
instead emits one chunk holding only the first unit's message and silently
drops the second unit: on overflow it closes the current chunk but never
appends the overflowing unit to any chunk. -/
theorem c1_scheduler_drops_overflow_unit :
    review_chunks MAX_TOKENS_PER_REVIEW [fileA, fileB] = [["msgA"]] ∧
      review_chunks MAX_TOKENS_PER_REVIEW [fileA, fileB] ≠
        [["msgA"], ["msgB"]] := by
  constructor
  · rfl
  · decide

/-- Claim C2: the chunks are claimed to partition the plan's NeedsReview
units.  The code violates this: with two 15,000-token NeedsReview units and
budget 20,000 the second unit appears in no chunk at all. -/
theorem c2_needs_review_unit_lost :
    review_chunk_units MAX_TOKENS_PER_REVIEW [fileA, fileB] = [[fileA]] ∧
      fileB.status = "needs_review" ∧
      ∀ c ∈ review_chunk_units MAX_TOKENS_PER_REVIEW [fileA, fileB],
        fileB ∉ c := by
  refine ⟨rfl, rfl, ?_⟩
  decide

/-- Claim C3: every chunk produced by the scheduler containing two or more
units has summed `input_tokens` at most the budget (in fact this holds for
every chunk, so in particular for those of size at least two). -/
theorem c3_chunk_budget (budget : Nat) (files : List ReviewFile)
    (c : List ReviewFile) (hc : c ∈ review_chunk_units budget files)
    (hlen : 2 ≤ c.length) :
    (c.map ReviewFile.input_tokens).sum ≤ budget :=
  review_chunk_units_sum_le budget files c hc

/-- Small units used to witness claim C3 on a concrete run. -/
def fileC : ReviewFile := ⟨"C.py", "msgC", "needs_review", 5000, none⟩

/-- Small units used to witness claim C3 on a concrete run. -/
def fileD : ReviewFile := ⟨"D.py", "msgD", "needs_review", 5000, none⟩

/-- Witness for claim C3: a concrete run with one two-unit chunk. -/
theorem c3_chunk_budget_witness :
    [fileC, fileD] ∈ review_chunk_units 20000 [fileC, fileD] ∧
      2 ≤ ([fileC, fileD] : List ReviewFile).length ∧
      (([fileC, fileD] : List ReviewFile).map ReviewFile.input_tokens).sum ≤
        20000 :=
  ⟨by decide, by decide,
    c3_chunk_budget 20000 [fileC, fileD] [fileC, fileD] (by decide) (by decide)⟩

/-! ## The planner: `strings.annotated_file_contents` and `plan_code_review` -/

/-- Embeds `strings.MAX_PADDING`. -/
def MAX_PADDING : Nat := 5

/-- Helper for `splitlines`: accumulates the current line (reversed). -/
def splitlinesAux : List Char → List Char → List String
  | [], acc => if acc.isEmpty then [] else [acc.reverse.asString]
  | '\n' :: rest, acc => acc.reverse.asString :: splitlinesAux rest []
  | c :: rest, acc => splitlinesAux rest (c :: acc)

/-- Embeds Python `str.splitlines` for newline-delimited text: splits on
the line feed character and drops a trailing empty segment. -/
def splitlines (s : String) : List String :=
  splitlinesAux s.data []

/-- Embeds the Python format spec `{n: >5}`: decimal digits right-aligned
in a field of `MAX_PADDING` spaces. -/
def rightAligned (n : Nat) : String :=
  let digits := toString n
  (List.replicate (MAX_PADDING - digits.length) ' ').asString ++ digits

/-- Embeds the inner `is_changed_line` of `strings.annotated_file_contents`:
whether a 1-based line number falls inside any changed `[start, end]` range
(inclusive). -/
def is_changed_line (changed_line_ranges : List (Nat × Nat))
    (line_number : Nat) : Bool :=
  changed_line_ranges.any fun r =>
    decide (r.1 ≤ line_number) && decide (line_number ≤ r.2)

/-- Embeds `strings.annotated_file_contents` (strings.py lines 9-23): each
line is prefixed with `*` if changed (space otherwise) and its right-aligned
line number, followed by a space and the line text when the line is
non-empty. -/
def annotated_file_contents (content : String)
    (changed_line_ranges : List (Nat × Nat)) (start : Nat) : String :=
  let lines := splitlines content
  String.intercalate "\n"
    (lines.enum.map fun p =>
      (if is_changed_line changed_line_ranges (start + p.1) then "*" else " ") ++
        rightAligned (start + p.1) ++
        (if p.2 ≠ "" then " " ++ p.2 else ""))

/-- Embeds the `SINGLE_MESSAGE` template of run.py (lines 59-66) applied by
`.format`: the literal triple-quoted string with the two fields filled in. -/
def SINGLE_MESSAGE (file_path file_contents_with_line_numbers : String) :
    String :=
  "\nFile Path: " ++ file_path ++
    "\n\nFile Contents (annotated):\n```\n" ++
    file_contents_with_line_numbers ++ "\n```\n"

/-- One entry of `revu.diff_by_file`: `(file_path, unified_diff,
changed_hunks)` as yielded by the diff source (review.py). -/
structure DiffEntry where
  file_path : String
  unified_diff : Option String
  changed_hunks : List (Nat × Nat)
deriving DecidableEq

/-- The external collaborators `plan_code_review` calls, passed explicitly:
the result of `scm.file_is_binary` (when it returns), the diff source's
`current_file_contents`, the tokenizer `llm.num_tokens`, and the diff
source's `root_dir`. -/
structure PlanEnv where
  file_is_binary : String → Bool
  current_file_contents : String → Option String
  num_tokens : String → Nat
  root_dir : String

/-- Embeds `os.path.join` for the relative POSIX paths the planner builds. -/
def os_path_join (a b : String) : String :=
  if a = "" then b else a ++ "/" ++ b

/-- The rendered request message for one entry: the `msg` assigned in the
`needs_review` branch of `plan_code_review` (run.py lines 178-185). -/
def plan_message (env : PlanEnv) (e : DiffEntry) : String :=
  SINGLE_MESSAGE e.file_path
    (annotated_file_contents
      ((env.current_file_contents e.file_path).getD "") e.changed_hunks 1)

/-- Loop body of `plan_code_review` (run.py lines 168-209) given the binary
check's answer: returns the `ReviewFile` together with the `in_tokens` and
`est_out_tokens` arguments passed to `add_file`. -/
def planStepWith (isBinary : Bool) (env : PlanEnv) (e : DiffEntry) :
    ReviewFile × Nat × Nat :=
  if isBinary || e.unified_diff.isNone then
    (⟨e.file_path, "", "skipped", 0, some "binary or generated file"⟩, 0, 0)
  else
    let msg := plan_message env e
    let approx_output_tokens := env.num_tokens (e.unified_diff.getD "")
    let num_input_tokens := env.num_tokens msg
    if num_input_tokens > MAX_TOKENS_PER_REVIEW then
      (⟨e.file_path, msg, "skipped", 0, some "file too large"⟩, 0, 0)
    else
      (⟨e.file_path, msg, "needs_review", num_input_tokens, none⟩,
        num_input_tokens, approx_output_tokens)

/-- Loop body of `plan_code_review` with the binary check evaluated on the
joined path, as in the source. -/
def planStep (env : PlanEnv) (e : DiffEntry) : ReviewFile × Nat × Nat :=
  planStepWith (env.file_is_binary (os_path_join env.root_dir e.file_path))
    env e

/-- Embeds `plan_code_review` (run.py lines 157-211): folds `add_file` over
the diff entries starting from an empty plan. -/
def plan_code_review (env : PlanEnv) (entries : List DiffEntry) : ReviewPlan :=
  entries.foldl
    (fun ret e =>
      let r := planStep env e
      ret.add_file r.1 r.2.1 r.2.2)
    ⟨[], 0, 0, 0⟩

/-- `scm.file_is_binary` opens the file unguarded (scm.py lines 47-54), so
it can raise; this fallible variant of the loop body propagates that
exception, as the Python does. -/
def planStepE (file_is_binary : String → Except String Bool) (env : PlanEnv)
    (e : DiffEntry) : Except String (ReviewFile × Nat × Nat) :=
  match file_is_binary (os_path_join env.root_dir e.file_path) with
  | Except.error err => Except.error err
  | Except.ok b => Except.ok (planStepWith b env e)

/-- Fallible variant of `plan_code_review`: an exception escaping the loop
body aborts the whole plan, as in Python. -/
def plan_code_reviewE (file_is_binary : String → Except String Bool)
    (env : PlanEnv) (entries : List DiffEntry) : Except String ReviewPlan :=
  entries.foldlM
    (fun ret e => do
      let r ← planStepE file_is_binary env e
      pure (ret.add_file r.1 r.2.1 r.2.2))
    ⟨[], 0, 0, 0⟩

/-! ## Structural lemmas about the planner fold -/

lemma plan_foldl_files (env : PlanEnv) (entries : List DiffEntry)
    (acc : ReviewPlan) :
    (entries.foldl
        (fun ret e =>
          let r := planStep env e
          ret.add_file r.1 r.2.1 r.2.2) acc).files =
      acc.files ++ entries.map (fun e => (planStep env e).1) := by
  induction entries generalizing acc with
  | nil => simp
  | cons e es ih =>
    rw [List.foldl_cons, ih]
    simp [ReviewPlan.add_file]

lemma plan_foldl_input (env : PlanEnv) (entries : List DiffEntry)
    (acc : ReviewPlan) :
    (entries.foldl
        (fun ret e =>
          let r := planStep env e
          ret.add_file r.1 r.2.1 r.2.2) acc).input_tokens =
      acc.input_tokens + (entries.map (fun e => (planStep env e).2.1)).sum := by
  induction entries generalizing acc with
  | nil => simp
  | cons e es ih =>
    rw [List.foldl_cons, ih]
    simp only [ReviewPlan.add_file, List.map_cons, List.sum_cons]
    omega

lemma plan_foldl_output (env : PlanEnv) (entries : List DiffEntry)
    (acc : ReviewPlan) :
    (entries.foldl
        (fun ret e =>
          let r := planStep env e
          ret.add_file r.1 r.2.1 r.2.2) acc).estimated_output_tokens =
      acc.estimated_output_tokens +
        (entries.map (fun e => (planStep env e).2.2)).sum := by
  induction entries generalizing acc with
  | nil => simp
  | cons e es ih =>
    rw [List.foldl_cons, ih]
    simp only [ReviewPlan.add_file, List.map_cons, List.sum_cons]
    omega

/-- Per-step accounting: the `in_tokens` passed to `add_file` equals the
file's recorded `input_tokens` when it needs review, and zero otherwise. -/
lemma planStep_input_split (env : PlanEnv) (e : DiffEntry) :
    (planStep env e).2.1 =
      if (planStep env e).1.status = "needs_review"
      then (planStep env e).1.input_tokens else 0 := by
  unfold planStep planStepWith
  by_cases h1 : env.file_is_binary (os_path_join env.root_dir e.file_path) ||
      e.unified_diff.isNone
  · simp [h1]
  · by_cases h2 :
      env.num_tokens (plan_message env e) > MAX_TOKENS_PER_REVIEW
    · simp [h1, h2]
    · simp [h1, h2]

/-- Per-step accounting: a step whose file does not need review passes zero
estimated output tokens to `add_file`. -/
lemma planStep_output_split (env : PlanEnv) (e : DiffEntry)
    (h : (planStep env e).1.status ≠ "needs_review") :
    (planStep env e).2.2 = 0 := by
  unfold planStep planStepWith at *
  by_cases h1 : env.file_is_binary (os_path_join env.root_dir e.file_path) ||
      e.unified_diff.isNone
  · simp [h1]
  · by_cases h2 :
      env.num_tokens (plan_message env e) > MAX_TOKENS_PER_REVIEW
    · simp [h1, h2]
    · simp [h1, h2] at h

lemma sum_filter_map_eq (l : List DiffEntry) (p : ReviewFile → Bool)
    (g : DiffEntry → ReviewFile) (f : ReviewFile → Nat) :
    (((l.map g).filter p).map f).sum =
      (l.map fun e => if p (g e) then f (g e) else 0).sum := by
  induction l with
  | nil => rfl
  | cons e es ih =>
    by_cases h : p (g e) <;>
      simp [List.filter_cons, h, ih]

/-- Claim C4: a plan's `input_tokens` aggregate is the sum of
`input_tokens` over its `needs_review` files, and its
`estimated_output_tokens` aggregate is the sum of per-file estimated
output tokens over entries that become `needs_review`; skipped files
contribute zero to both. -/
theorem c4_plan_aggregates (env : PlanEnv) (entries : List DiffEntry) :
    (plan_code_review env entries).input_tokens =
      (((plan_code_review env entries).files.filter
          (fun f => f.status = "needs_review")).map
        ReviewFile.input_tokens).sum ∧
    (plan_code_review env entries).estimated_output_tokens =
      (entries.map fun e =>
        if (planStep env e).1.status = "needs_review"
        then (planStep env e).2.2 else 0).sum := by
  constructor
  · unfold plan_code_review
    rw [plan_foldl_input, plan_foldl_files]
    simp only [List.nil_append, Nat.zero_add]
    rw [sum_filter_map_eq entries (fun f => f.status = "needs_review")
        (fun e => (planStep env e).1) ReviewFile.input_tokens]
    congr 1
    apply List.map_congr_left
    intro e _
    rw [planStep_input_split]
    by_cases h : (planStep env e).1.status = "needs_review" <;> simp [h]
  · unfold plan_code_review
    rw [plan_foldl_output]
    simp only [Nat.zero_add]
    congr 1
    apply List.map_congr_left
    intro e _
    by_cases h : (planStep env e).1.status = "needs_review"
    · simp [h]
    · simp [h, planStep_output_split env e h]

/-- Concrete environment used by the planner witnesses: nothing is binary,
every file has one-character content, the tokenizer counts characters. -/
def envW : PlanEnv :=
  ⟨fun _ => false, fun _ => some "x", fun s => s.length, ""⟩

/-- Concrete diff entry used by the planner witnesses. -/
def entryW : DiffEntry := ⟨"a.py", some "d", [(1, 1)]⟩

/-- Witness for claim C4 on a concrete one-entry plan. -/
theorem c4_plan_aggregates_witness :
    (plan_code_review envW [entryW]).input_tokens =
      (((plan_code_review envW [entryW]).files.filter
          (fun f => f.status = "needs_review")).map
        ReviewFile.input_tokens).sum ∧
    (plan_code_review envW [entryW]).estimated_output_tokens =
      ([entryW].map fun e =>
        if (planStep envW e).1.status = "needs_review"
        then (planStep envW e).2.2 else 0).sum :=
  c4_plan_aggregates envW [entryW]

/-- Claim C5: an entry whose rendered message measures over the budget
becomes a skipped file with reason "file too large", zero recorded
`input_tokens`, and contributes nothing to either plan aggregate. -/
theorem c5_file_too_large (env : PlanEnv) (e : DiffEntry)
    (entries : List DiffEntry)
    (hbin : env.file_is_binary (os_path_join env.root_dir e.file_path) = false)
    (hdiff : e.unified_diff.isSome)
    (hbig : env.num_tokens (plan_message env e) > MAX_TOKENS_PER_REVIEW) :
    planStep env e =
      (⟨e.file_path, plan_message env e, "skipped", 0,
        some "file too large"⟩, 0, 0) ∧
    (plan_code_review env (entries ++ [e])).input_tokens =
      (plan_code_review env entries).input_tokens ∧
    (plan_code_review env (entries ++ [e])).estimated_output_tokens =
      (plan_code_review env entries).estimated_output_tokens := by
  obtain ⟨d, hd⟩ := Option.isSome_iff_exists.mp hdiff
  have hstep : planStep env e =
      (⟨e.file_path, plan_message env e, "skipped", 0,
        some "file too large"⟩, 0, 0) := by
    unfold planStep planStepWith
    simp [hbin, hd, hbig]
  refine ⟨hstep, ?_, ?_⟩
  · unfold plan_code_review
    rw [List.foldl_append]
    simp [hstep, ReviewPlan.add_file]
  · unfold plan_code_review
    rw [List.foldl_append]
    simp [hstep, ReviewPlan.add_file]

/-- Planner environment whose tokenizer reports every text as one token
over the budget. -/
def envBig : PlanEnv :=
  ⟨fun _ => false, fun _ => some "x", fun _ => 20001, ""⟩

/-- Witness for claim C5 at a concrete oversized entry. -/
theorem c5_file_too_large_witness :
    envBig.file_is_binary (os_path_join envBig.root_dir entryW.file_path) =
        false ∧
      entryW.unified_diff.isSome = true ∧
      envBig.num_tokens (plan_message envBig entryW) >
        MAX_TOKENS_PER_REVIEW ∧
      planStep envBig entryW =
        (⟨entryW.file_path, plan_message envBig entryW, "skipped", 0,
          some "file too large"⟩, 0, 0) ∧
      (plan_code_review envBig ([] ++ [entryW])).input_tokens =
        (plan_code_review envBig []).input_tokens :=
  ⟨rfl, rfl, by decide,
    (c5_file_too_large envBig entryW [] rfl rfl (by decide)).1,
    (c5_file_too_large envBig entryW [] rfl rfl (by decide)).2.1⟩

/-- Claim C6 as stated is false: a file skipped as "file too large" keeps
its rendered (non-empty) message, because the source resets the token
counts but never clears `msg`.  Concrete counterexample: a one-line file
whose message measures 20,001 tokens. -/
theorem c6_counterexample :
    (planStep envBig entryW).1.status = "skipped" ∧
      (planStep envBig entryW).1.message ≠ "" := by
  constructor
  · decide
  · decide

/-- Claim C6 (amended): every skipped file produced by the planner has an
empty message unless it was skipped as "file too large", in which case the
rendered message is retained. -/
theorem c6_skipped_message (env : PlanEnv) (entries : List DiffEntry)
    (f : ReviewFile) (hf : f ∈ (plan_code_review env entries).files)
    (hs : f.status = "skipped") :
    f.message = "" ∨ f.skipped_reason = some "file too large" := by
  unfold plan_code_review at hf
  rw [plan_foldl_files] at hf
  simp only [List.nil_append, List.mem_map] at hf
  obtain ⟨e, _, he⟩ := hf
  rw [← he] at hs ⊢
  unfold planStep planStepWith at hs ⊢
  by_cases h1 : env.file_is_binary (os_path_join env.root_dir e.file_path) ||
      e.unified_diff.isNone
  · simp [h1]
  · by_cases h2 :
      env.num_tokens (plan_message env e) > MAX_TOKENS_PER_REVIEW
    · simp [h1, h2]
    · simp [h1, h2] at hs

/-- Planner environment whose binary check claims every file is binary. -/
def envBin : PlanEnv :=
  ⟨fun _ => true, fun _ => none, fun _ => 0, ""⟩

/-- Witness for the amended claim C6 at a concrete skipped binary file. -/
theorem c6_skipped_message_witness :
    (planStep envBin entryW).1 ∈ (plan_code_review envBin [entryW]).files ∧
      (planStep envBin entryW).1.status = "skipped" ∧
      ((planStep envBin entryW).1.message = "" ∨
        (planStep envBin entryW).1.skipped_reason = some "file too large") :=
  ⟨by decide, by decide,
    c6_skipped_message envBin [entryW] (planStep envBin entryW).1 (by decide)
      (by decide)⟩

/-- The binary check of an unreadable file: `open` raises, modelled as the
error value `FileNotFoundError`. -/
def raisingBinaryCheck : String → Except String Bool :=
  fun _ => Except.error "FileNotFoundError"

/-- A removed file as yielded by `SCMReview.diff_by_file`: unified diff
`None`, no hunks; the file no longer exists on disk. -/
def removedEntry : DiffEntry := ⟨"removed.py", none, []⟩

/-- Claim C7 is contradicted by the code: for an entry with a null diff
whose file cannot be opened (a removed file), `scm.file_is_binary` is
evaluated first, its exception escapes, and planning fails instead of
producing a skipped unit. -/
theorem c7_planning_fails_on_unreadable_file :
    removedEntry.unified_diff = none ∧
      plan_code_reviewE raisingBinaryCheck envW [removedEntry] =
        Except.error "FileNotFoundError" :=
  ⟨rfl, rfl⟩

/-! ## Result reconciliation: `_deserialize_review_response` (run.py 139-154) -/

/-- Modelled from the spec: one comment of a `FileReviewResult`, from the
missing `sparrow/assistant/actions.py` (`{explanation, start_line,
old_code_block?, new_code_block?}`). -/
structure ReviewComment where
  explanation : String
  start_line : Nat
  old_code_block : Option String
  new_code_block : Option String
deriving DecidableEq

/-- Modelled from the spec: `FileReviewResult` of the missing
`sparrow/assistant/actions.py` (`file_path`, `accepted`, ordered comments). -/
structure FileReviewResult where
  file_path : String
  accepted : Bool
  comments : List ReviewComment
deriving DecidableEq

/-- The `function` record of one tool call, holding the JSON `arguments`. -/
structure ToolCallFunction where
  arguments : String
deriving DecidableEq

/-- One tool-call entry of a required-action payload. -/
structure ToolCall where
  function : ToolCallFunction
deriving DecidableEq

/-- The `submit_tool_outputs` record of a required action. -/
structure SubmitToolOutputs where
  tool_calls : List ToolCall
deriving DecidableEq

/-- The `required_action` record of a run. -/
structure RequiredAction where
  submit_tool_outputs : SubmitToolOutputs
deriving DecidableEq

/-- The fields of an OpenAI `Run` that `_deserialize_review_response`
reads: the status string and the optional required-action payload. -/
structure RunResponse where
  status : String
  required_action : Option RequiredAction
deriving DecidableEq

/-- Embeds `_deserialize_review_response` (run.py lines 139-154).  The
fallible `FileReviewResult.model_validate_json` is the collaborator
`parse`; a `none` is the caught `JSONDecodeError`/`ValidationError`, whose
entry is dropped. -/
def _deserialize_review_response (parse : String → Option FileReviewResult)
    (response : RunResponse) : List FileReviewResult :=
  if (response.status = "requires_action" ∨ response.status = "completed") ∧
      response.required_action.isSome then
    match response.required_action with
    | some ra =>
        ra.submit_tool_outputs.tool_calls.filterMap
          (fun call => parse call.function.arguments)
    | none => []
  else []

/-- Claim C8: a terminal job with one well-formed and one malformed
tool-call entry yields exactly the one parsed result; a failed or expired
job, or one without a required-action payload, yields the empty list. -/
theorem c8_deserialize_tolerates_malformed_entry
    (parse : String → Option FileReviewResult) :
    (∀ response ra good bad r,
      (response.status = "requires_action" ∨
        response.status = "completed") →
      response.required_action = some ra →
      ra.submit_tool_outputs.tool_calls = [good, bad] →
      parse good.function.arguments = some r →
      parse bad.function.arguments = none →
      _deserialize_review_response parse response = [r]) ∧
    (∀ response : RunResponse,
      response.status = "failed" ∨ response.status = "expired" →
      _deserialize_review_response parse response = []) ∧
    (∀ response : RunResponse, response.required_action = none →
      _deserialize_review_response parse response = []) := by
  refine ⟨?_, ?_, ?_⟩
  · intro response ra good bad r hst hra hcalls hg hb
    unfold _deserialize_review_response
    rw [if_pos ⟨hst, by rw [hra]; rfl⟩, hra]
    simp [hcalls, hg, hb]
  · intro response hst
    unfold _deserialize_review_response
    rw [if_neg]
    rintro ⟨hor, -⟩
    rcases hst with h | h <;> rw [h] at hor <;>
      rcases hor with h' | h' <;> exact absurd h' (by decide)
  · intro response hra
    unfold _deserialize_review_response
    rw [if_neg]
    rintro ⟨-, hsome⟩
    rw [hra] at hsome
    exact absurd hsome (by decide)

/-- Concrete parser for the reconciliation witnesses: only the literal
argument string "good" parses. -/
def parseW : String → Option FileReviewResult :=
  fun s => if s = "good" then some ⟨"a.py", true, []⟩ else none

/-- A tool call whose arguments parse under `parseW`. -/
def goodCall : ToolCall := ⟨⟨"good"⟩⟩

/-- A tool call whose arguments fail to parse under `parseW`. -/
def badCall : ToolCall := ⟨⟨"bad"⟩⟩

/-- A terminal requires-action run carrying one well-formed and one
malformed tool call. -/
def respW : RunResponse :=
  ⟨"requires_action", some ⟨⟨[goodCall, badCall]⟩⟩⟩

/-- Witness for claim C8 at the concrete mixed payload. -/
theorem c8_deserialize_witness :
    _deserialize_review_response parseW respW =
      [⟨"a.py", true, ([] : List ReviewComment)⟩] :=
  (c8_deserialize_tolerates_malformed_entry parseW).1 respW
    ⟨⟨[goodCall, badCall]⟩⟩ goodCall badCall ⟨"a.py", true, []⟩
    (Or.inl rfl) rfl rfl (by decide) (by decide)

/-! ## The submission loop of `execute_code_review` (run.py 116-136) -/

/-- Submission loop of `execute_code_review`: per chunk (in order), the
backend round-trip `create_and_run` followed by `wait_for_run_completion`
is the collaborator `wait_result`, taking the chunk index and the chunk; a
`none` is a run that exhausted all poll attempts (timed out).  Results of
each terminal run are deserialized and appended with `extend`. -/
def execute_review_loop (parse : String → Option FileReviewResult)
    (wait_result : Nat → List String → Option RunResponse)
    (chunks : List (List String)) : List FileReviewResult :=
  chunks.enum.foldl
    (fun results p =>
      match wait_result p.1 p.2 with
      | some chunk_result =>
          results ++ _deserialize_review_response parse chunk_result
      | none => results)
    []

/-- Embeds `execute_code_review` (run.py lines 94-136): the chunking phase
followed by the submission loop. -/
def execute_code_review (parse : String → Option FileReviewResult)
    (wait_result : Nat → List String → Option RunResponse)
    (plan : ReviewPlan) : List FileReviewResult :=
  execute_review_loop parse wait_result
    (review_chunks MAX_TOKENS_PER_REVIEW plan.files)

lemma execute_review_loop_foldl (parse : String → Option FileReviewResult)
    (wait_result : Nat → List String → Option RunResponse)
    (l : List (Nat × List String)) (init : List FileReviewResult) :
    l.foldl
        (fun results p =>
          match wait_result p.1 p.2 with
          | some chunk_result =>
              results ++ _deserialize_review_response parse chunk_result
          | none => results)
        init =
      init ++ (l.map fun p =>
        match wait_result p.1 p.2 with
        | some r => _deserialize_review_response parse r
        | none => []).flatten := by
  induction l generalizing init with
  | nil => simp
  | cons p ps ih =>
    simp only [List.foldl_cons, List.map_cons, List.flatten_cons]
    cases hw : wait_result p.1 p.2 with
    | none => rw [ih]; simp
    | some r => rw [ih]; simp

/-- Claim C9: the final result list of `execute_code_review` is the
concatenation, in chunk-submission order, of each chunk's deserialized
result list, where a chunk whose job timed out contributes the empty
list; in particular every later chunk is still processed. -/
theorem c9_timeout_does_not_halt (parse : String → Option FileReviewResult)
    (wait_result : Nat → List String → Option RunResponse)
    (plan : ReviewPlan) :
    execute_code_review parse wait_result plan =
      ((review_chunks MAX_TOKENS_PER_REVIEW plan.files).enum.map fun p =>
        match wait_result p.1 p.2 with
        | some r => _deserialize_review_response parse r
        | none => []).flatten := by
  unfold execute_code_review execute_review_loop
  rw [execute_review_loop_foldl]
  simp

/-- A third, small unit: after the overflow at `fileB` it opens the second
chunk of the C9 witness plan. -/
def fileE : ReviewFile := ⟨"E.py", "msgE", "needs_review", 100, none⟩

/-- A two-chunk plan for the C9 witness. -/
def planW9 : ReviewPlan := ⟨[fileA, fileB, fileE], 0, 30100, 0⟩

/-- Backend behavior for the C9 witness: the first chunk's job times out,
the second terminates with the mixed payload `respW`. -/
def waitW9 : Nat → List String → Option RunResponse :=
  fun idx _ => if idx = 0 then none else some respW

/-- Witness for claim C9: the timed-out first chunk contributes nothing and
the second chunk's results still arrive. -/
theorem c9_timeout_witness :
    execute_code_review parseW waitW9 planW9 =
      ((review_chunks MAX_TOKENS_PER_REVIEW planW9.files).enum.map fun p =>
        match waitW9 p.1 p.2 with
        | some r => _deserialize_review_response parseW r
        | none => []).flatten :=
  c9_timeout_does_not_halt parseW waitW9 planW9

/-! ## Cost estimation: `cost` of run.py (lines 214-234) and `llm.cost` -/

/-- Embeds the `ModelCost` named tuple of constants.py, with exact
rational prices in place of the Python floats. -/
structure ModelCost where
  block_size : Rat
  input_cost_per_block : Rat
  output_cost_per_block : Rat
deriving DecidableEq

/-- Embeds `constants.MODEL_COSTS`. -/
def MODEL_COSTS (model : String) : Option ModelCost :=
  if model = "gpt-4-1106-preview" then some ⟨1000, 1/100, 3/100⟩ else none

/-- Embeds `llm.cost` (llm.py lines 19-32); the `ValueError` raised for an
unknown model is the `none` case. -/
def llm_cost (model_name : String)
    (input_tokens estimated_output_tokens : Nat) : Option Rat :=
  match MODEL_COSTS model_name with
  | none => none
  | some pricing =>
      some ((pricing.input_cost_per_block * (input_tokens : Rat) +
        pricing.output_cost_per_block * (estimated_output_tokens : Rat)) /
        pricing.block_size)

/-- Embeds `ASSISTANT_INSTRUCTIONS` (run.py lines 21-23, after
`.strip()`). -/
def ASSISTANT_INSTRUCTIONS : String :=
  "You an an assistant that helps with DevOps tasks. You review code, help with adding documentation etc.."

/-- Embeds `REVIEW_THREAD_INSTRUCTIONS` (run.py lines 25-33, after
`.strip()`). -/
def REVIEW_THREAD_INSTRUCTIONS : String :=
  "Each message in this thread represents changes made to a file in the patch set.\nThe first line is the file path. The subsequent lines contains the file contents annotated with line numbers.\nOnly the lines that start with an asterisk were updated.\nIMPORTANT:\n- Review code and flag substantive issues for updated code (lines marked with an asterisk).\n- Only reject if you are sure that there is an underlying issue with the code.\n- Do not flag formatting or style issues."

/-- Embeds `cost` of run.py (lines 214-234).  `num_tokens` is the
tokenizer collaborator; `mark_file_reviewed_json` stands for
`json.dumps(actions.mark_file_reviewed)`, the serialized review tool
schema of the missing `actions` module. -/
def run_cost (num_tokens : String → Nat) (mark_file_reviewed_json : String)
    (model_name : String) (plan : ReviewPlan) : Option (Rat × Nat × Nat) :=
  let input_tokens :=
    ([ASSISTANT_INSTRUCTIONS, REVIEW_THREAD_INSTRUCTIONS,
      mark_file_reviewed_json].map num_tokens).sum
  let input_tokens := input_tokens + plan.input_tokens
  match llm_cost model_name input_tokens plan.estimated_output_tokens with
  | none => none
  | some c => some (c, input_tokens, plan.estimated_output_tokens)

/-- Claim C10: the reported input-token figure is the plan's
`input_tokens` aggregate plus a fixed overhead independent of the plan
(the token counts of the two instruction texts and the serialized tool
schema); the estimated output tokens pass through unchanged; the monetary
estimate is `llm.cost` of exactly these two totals. -/
theorem c10_cost_fixed_overhead (num_tokens : String → Nat)
    (mark_file_reviewed_json model_name : String) :
    ∃ overhead : Nat, ∀ plan : ReviewPlan,
      run_cost num_tokens mark_file_reviewed_json model_name plan =
        (llm_cost model_name (plan.input_tokens + overhead)
            plan.estimated_output_tokens).map
          fun c =>
            (c, plan.input_tokens + overhead, plan.estimated_output_tokens) := by
  refine ⟨([ASSISTANT_INSTRUCTIONS, REVIEW_THREAD_INSTRUCTIONS,
      mark_file_reviewed_json].map num_tokens).sum, fun plan => ?_⟩
  simp only [run_cost]
  rw [Nat.add_comm plan.input_tokens]
  cases h : llm_cost model_name
      (([ASSISTANT_INSTRUCTIONS, REVIEW_THREAD_INSTRUCTIONS,
          mark_file_reviewed_json].map num_tokens).sum + plan.input_tokens)
      plan.estimated_output_tokens <;>
    simp [h]

/-- Witness for claim C10 at a concrete tokenizer and the configured
model. -/
theorem c10_cost_fixed_overhead_witness :
    ∃ overhead : Nat, ∀ plan : ReviewPlan,
      run_cost String.length "schema" "gpt-4-1106-preview" plan =
        (llm_cost "gpt-4-1106-preview" (plan.input_tokens + overhead)
            plan.estimated_output_tokens).map
          fun c =>
            (c, plan.input_tokens + overhead,
              plan.estimated_output_tokens) :=
  c10_cost_fixed_overhead String.length "schema" "gpt-4-1106-preview"

end Sparrow
